import Mathlib

/-!
# A leveled logger with daily file rotation (Go package `logger`)

Shallow embedding of `logger.go`.  Effects are made explicit: every method takes the
outcomes the environment decides (`Env`: the clock, whether `os.OpenFile` and each
`Write` succeed, the text of the log header) and threads a `World`, the trace of the calls
made on the world outside.  A message is an operand with code of its own: `fmt` renders it
inside `Println`, while the logger's mutex is held, and that rendering may make calls of its
own, call back into the logger, or never return.  Go's signed machine integers are integers
read through their two's-complement bit pattern of the type's width.
-/

namespace logger

/-! ## Machine integers -/

/-- The bit pattern of `x` as a `w`-bit two's-complement integer. -/
def toBits (w : Nat) (x : Int) : Nat := (x % 2 ^ w).toNat

/-- The signed value of a `w`-bit pattern. -/
def ofBits (w : Nat) (n : Nat) : Int :=
  if n < 2 ^ (w - 1) then (n : Int) else (n : Int) - 2 ^ w

/-- Go's `a & b` on `w`-bit signed integers. -/
def bitAnd (w : Nat) (a b : Int) : Int := ofBits w (toBits w a &&& toBits w b)

/-- Go's `a | b` on `w`-bit signed integers. -/
def bitOr (w : Nat) (a b : Int) : Int := ofBits w (toBits w a ||| toBits w b)

/-- Go's `a << k` on `w`-bit signed integers. -/
def bitShl (w : Nat) (a : Int) (k : Nat) : Int := ofBits w ((toBits w a <<< k) % 2 ^ w)

/-! ## Configuration (`logger.go` lines 12-69) -/

/-- The source's `type Output int8`. -/
abbrev Output := Int

/-- The `&` of two `Output` values. -/
def Output.and (a b : Output) : Output := bitAnd 8 a b

/-- The `|` of two `Output` values. -/
def Output.or (a b : Output) : Output := bitOr 8 a b

/-- The constant `Stdout Output = 1 << iota` with `iota = 0`. -/
def Stdout : Output := bitShl 8 1 0

/-- The constant `StdErr`, `1 << iota` with `iota = 1`. -/
def StdErr : Output := bitShl 8 1 1

/-- The constant `File`, `1 << iota` with `iota = 2`. -/
def File : Output := bitShl 8 1 2

/-- The struct `LevelConfig`. -/
structure LevelConfig where
  Output : Output
  Prefix : String
  Flag : Int
  deriving DecidableEq

/-- The struct `Config`. -/
structure Config where
  LogPath : String
  Trace : LevelConfig
  Debug : LevelConfig
  Info : LevelConfig
  Warning : LevelConfig
  Error : LevelConfig
  deriving DecidableEq

namespace log

/-- Flag `log.Ldate = 1 << iota`, `iota = 0`. -/
def Ldate : Int := bitShl 64 1 0

/-- Flag `log.Ltime`. -/
def Ltime : Int := bitShl 64 1 1

/-- Flag `log.Lmicroseconds`. -/
def Lmicroseconds : Int := bitShl 64 1 2

/-- Flag `log.Llongfile`. -/
def Llongfile : Int := bitShl 64 1 3

/-- Flag `log.Lshortfile`. -/
def Lshortfile : Int := bitShl 64 1 4

/-- Flag `log.LUTC`. -/
def LUTC : Int := bitShl 64 1 5

/-- Flag `log.Lmsgprefix`. -/
def Lmsgprefix : Int := bitShl 64 1 6

end log

namespace fmt

/-- The verb `%s` with a width, as `fmt` pads a string: the operand is padded with spaces up
to `wid` characters, on its left by default and on its right under the `-` flag. -/
def padString (minus : Bool) (wid : Nat) (s : String) : String :=
  let padding := String.mk (List.replicate (wid - s.length) ' ')
  if minus then s ++ padding else padding ++ s

end fmt

/-- The variable `DefaultConfig`; `LogPath` is left at its zero value. -/
def DefaultConfig : Config where
  LogPath := ""
  Trace :=
    { Prefix := fmt.padString true 10 "Trace"
      Output := Output.or Stdout File
      Flag := bitOr 64 (bitOr 64 log.Ldate log.Ltime) log.Lshortfile }
  Debug :=
    { Prefix := fmt.padString true 10 "Debug"
      Output := Output.or Stdout File
      Flag := bitOr 64 (bitOr 64 log.Ldate log.Ltime) log.Lshortfile }
  Info :=
    { Prefix := fmt.padString true 10 "Info"
      Output := Output.or Stdout File
      Flag := bitOr 64 (bitOr 64 log.Ldate log.Ltime) log.Lshortfile }
  Warning :=
    { Prefix := fmt.padString true 10 "Warning"
      Output := Output.or Stdout File
      Flag := bitOr 64 (bitOr 64 log.Ldate log.Ltime) log.Lshortfile }
  Error :=
    { Prefix := fmt.padString true 10 "Error"
      Output := Output.or Stdout File
      Flag := bitOr 64 (bitOr 64 log.Ldate log.Ltime) log.Lshortfile }

namespace time

/-- What the calendar date of a `time.Time` depends on: its seconds since the Unix epoch and
the offset, in seconds east of UTC, its location has at that instant. -/
structure Time where
  unixSec : Int
  offset : Int
  deriving DecidableEq

/-- The zero value of `time.Time`: January 1 of year 1, 00:00:00 UTC. -/
def Time.zero : Time := ⟨-62135596800, 0⟩

/-- What `time.Now()` can return: a reading of the system clock, which is not before the
Unix epoch; the seconds are a non-negative `int64`, the zone offset an `int32`. -/
def Time.isClockReading (t : Time) : Prop :=
  (0 ≤ t.unixSec ∧ t.unixSec < 2 ^ 63) ∧ (-(2 ^ 31) ≤ t.offset ∧ t.offset < 2 ^ 31)

instance (t : Time) : Decidable t.isClockReading := by
  unfold Time.isClockReading
  infer_instance

/-- Constant `unixToInternal + internalToAbsolute` of package `time`, in seconds. -/
def unixToAbsolute : Int := 62135596800 + 9223371966579724800

/-- Constant `absoluteZeroYear` of package `time`. -/
def absoluteZeroYear : Int := -292277022399

/-- Method `abs`: seconds since the absolute zero year in the time's location, a `uint64`. -/
def Time.abs (t : Time) : Nat := toBits 64 (t.unixSec + t.offset + unixToAbsolute)

/-- Function `isLeap` of package `time`. -/
def isLeap (year : Int) : Bool := year % 4 == 0 && (year % 100 != 0 || year % 400 == 0)

/-- Table `daysBefore` of package `time`: days in a non-leap year before each month. -/
def daysBefore : List Nat := [0, 31, 59, 90, 120, 151, 181, 212, 243, 273, 304, 334, 365]

/-- Function `absDate` of package `time`: year, month and day of month of an absolute time. -/
def absDate (abs : Nat) : Int × Nat × Nat :=
  let d := abs / 86400
  -- 400-year cycles
  let n := d / 146097
  let y := 400 * n
  let d := d - 146097 * n
  -- 100-year cycles; the last one is a day longer
  let n := d / 36524
  let n := n - (n >>> 2)
  let y := y + 100 * n
  let d := d - 36524 * n
  -- 4-year cycles
  let n := d / 1461
  let y := y + 4 * n
  let d := d - 1461 * n
  -- years within a 4-year cycle
  let n := d / 365
  let n := n - (n >>> 2)
  let y := y + n
  let d := d - 365 * n
  let year : Int := (y : Int) + absoluteZeroYear
  let leap := isLeap year
  if leap && d == 31 + 29 - 1 then (year, 2, 29)
  else
    let day := if leap && d > 31 + 29 - 1 then d - 1 else d
    let month := day / 31
    let last := daysBefore.getD (month + 1) 0
    if day ≥ last then (year, month + 2, day - last + 1)
    else (year, month + 1, day - daysBefore.getD month 0 + 1)

/-- A decimal digit as a character. -/
def digit (n : Nat) : Char := Char.ofNat (48 + n % 10)

/-- Function `appendInt` of package `time`: a minus sign for a negative `x`, then the decimal
digits of its magnitude, zero-padded on the left to `width` digits. -/
def appendInt (x : Int) (width : Nat) : List Char :=
  let u := x.natAbs
  let sign : List Char := if x < 0 then ['-'] else []
  if width = 2 ∧ u < 100 then sign ++ [digit (u / 10), digit u]
  else if width = 4 ∧ u < 10000 then
    sign ++ [digit (u / 100 / 10), digit (u / 100), digit (u % 100 / 10), digit (u % 100)]
  else
    let ds := Nat.toDigits 10 u
    sign ++ List.replicate (width - ds.length) '0' ++ ds

/-- Method call `t.Format("2006-01-02")`: four-digit year, two-digit month, two-digit day. -/
def Time.Format_2006_01_02 (t : Time) : String :=
  let ymd := absDate t.abs
  String.mk (appendInt ymd.1 4 ++ '-' :: appendInt ymd.2.1 2 ++ '-' :: appendInt ymd.2.2 2)

end time

/-! ## The environment: files, writers, the trace of library calls -/

/-- An open `*os.File`: the name it was opened under, and the position in the trace of the
call that opened it, which tells two openings of one name apart. -/
structure OsFile where
  id : Nat
  name : String
  deriving DecidableEq

/-- An `io.Writer` as this package uses them: `os.Stdout`, `os.Stderr`, or a `*os.File`
that is `nil` (here `none`) when it was never opened or its opening failed. -/
inductive Writer where
  | stdout
  | stderr
  | file (f : Option OsFile)
  deriving DecidableEq

/-- The flags of `os.OpenFile`, by name (their numbers depend on the platform). -/
inductive OpenFlag where
  | O_CREATE
  | O_WRONLY
  | O_APPEND
  deriving DecidableEq

/-- One library call the program makes on the world outside, and whether it succeeded. -/
inductive Call where
  | MkdirAll (path : String) (perm : Nat) (ok : Bool)
  | OpenFile (name : String) (flag : List OpenFlag) (perm : Nat) (ok : Bool)
  | Write (wr : Writer) (p : String) (ok : Bool)
  deriving DecidableEq

/-- The world outside the program: the calls made so far, oldest first. -/
structure World where
  calls : List Call
  deriving DecidableEq

namespace log

/-- What package `log` reads from the clock and the call stack for one entry, already
rendered: the date `2006/01/02` and the time `15:04:05` in local time and in UTC, the six
digits of the microseconds, and the file and line `runtime.Caller` reports. -/
structure Stamp where
  date : String
  clock : String
  utcDate : String
  utcClock : String
  micro : String
  file : String
  line : String
  deriving DecidableEq

end log

/-- What the environment decides during one logging call. -/
structure Env where
  /-- the value `time.Now()` returns in `resetLogger` -/
  now : time.Time
  /-- whether `os.MkdirAll` succeeds on a path -/
  mkdirOk : String → Bool
  /-- whether `os.OpenFile` succeeds on a name -/
  openOk : String → Bool
  /-- whether a `Write` on a standard stream or an open file delivers all its bytes -/
  writeOk : Writer → Bool
  /-- the clock and call-stack reading of package `log` -/
  stamp : log.Stamp

/-- How a call can fail to return normally: a `nil` pointer dereference (a panic), a `Lock`
on a mutex that stays locked, an `Unlock` of an unlocked mutex (a fatal error), or code of
the caller that never returns. -/
inductive Fault where
  | nilDereference
  | deadlock
  | unlockOfUnlocked
  | hang
  deriving DecidableEq

/-- Method `Write` of `*os.File`: on a `nil` file it fails whatever the environment
(`os.ErrInvalid`); otherwise the environment decides. Returns whether it succeeded. -/
def Writer.Write (wr : Writer) (p : String) (env : Env) (w : World) : Bool × World :=
  match wr with
  | .file none => (false, ⟨w.calls ++ [.Write wr p false]⟩)
  | _ => (env.writeOk wr, ⟨w.calls ++ [.Write wr p (env.writeOk wr)]⟩)

namespace io

/-- Method `Write` of the writer `io.MultiWriter` returns: each listed writer in turn, and
the first error (or short write) ends the call. Returns whether all succeeded. -/
def MultiWriter.Write (writers : List Writer) (p : String) (env : Env) (w : World) :
    Bool × World :=
  match writers with
  | [] => (true, w)
  | wr :: rest =>
    let r := wr.Write p env w
    if r.1 then MultiWriter.Write rest p env r.2 else (false, r.2)

end io

namespace log

/-- A `*log.Logger` made by `log.New(io.MultiWriter(writers...), pfx, flag)`. -/
structure Logger where
  out : List Writer
  pfx : String
  flag : Int
  deriving DecidableEq

/-- The part of `file` after its last slash, as `formatHeader` shortens it under
`Lshortfile`; a slash at index 0 is not looked at. -/
def shortFile (file : String) : String :=
  match file.data with
  | [] => file
  | _ :: rest =>
    if '/' ∈ rest then String.mk (rest.reverse.takeWhile (· ≠ '/')).reverse else file

/-- Function `formatHeader` of package `log`: the text put before the message. -/
def formatHeader (st : Stamp) (pfx : String) (flag : Int) : String :=
  let buf := ""
  let buf := if bitAnd 64 flag Lmsgprefix = 0 then buf ++ pfx else buf
  let buf :=
    if bitAnd 64 flag (bitOr 64 (bitOr 64 Ldate Ltime) Lmicroseconds) ≠ 0 then
      let utc : Bool := bitAnd 64 flag LUTC ≠ 0
      let buf :=
        if bitAnd 64 flag Ldate ≠ 0 then buf ++ (if utc then st.utcDate else st.date) ++ " "
        else buf
      if bitAnd 64 flag (bitOr 64 Ltime Lmicroseconds) ≠ 0 then
        let buf := buf ++ (if utc then st.utcClock else st.clock)
        let buf := if bitAnd 64 flag Lmicroseconds ≠ 0 then buf ++ "." ++ st.micro else buf
        buf ++ " "
      else buf
    else buf
  let buf :=
    if bitAnd 64 flag (bitOr 64 Lshortfile Llongfile) ≠ 0 then
      let file := if bitAnd 64 flag Lshortfile ≠ 0 then shortFile st.file else st.file
      buf ++ file ++ ":" ++ st.line ++ ": "
    else buf
  if bitAnd 64 flag Lmsgprefix ≠ 0 then buf ++ pfx else buf

/-- The entry `Println` writes for an operand that `fmt` rendered as `text`: the header, the
text and the newline of `fmt.Sprintln`, and a newline more when that does not end in one. -/
def Logger.entry (l : Logger) (text : String) (st : Stamp) : String :=
  let buf := formatHeader st l.pfx l.flag
  let buf := buf ++ (text ++ "\n")
  if buf.data.getLast? ≠ some '\n' then buf ++ "\n" else buf

/-- Method `Println` with one operand. First `fmt` renders the operand: `operand` is what
that does, the operand's own `String`, `Error` or `Format` method included, to the state
`s` this method can reach and to the world, and the text it returns. Then the entry goes to
the logger's output in one `Write`, whose error is dropped. When rendering does not return,
`Println` does not and nothing is written. -/
def Logger.Println {σ : Type} (l : Logger)
    (operand : σ → World → Except Fault (String × σ × World)) (s : σ) (env : Env)
    (w : World) : Except Fault (σ × World) :=
  match operand s w with
  | .error e => .error e
  | .ok (text, s, w) => .ok (s, (io.MultiWriter.Write l.out (l.entry text env.stamp) env w).2)

end log

/-! ## The logger (`logger.go` lines 29-35 and 71-153) -/

namespace sync

/-- A `sync.Mutex`. -/
structure Mutex where
  locked : Bool
  deriving DecidableEq

/-- Method `Lock` through a `*sync.Mutex`. -/
def Mutex.Lock : Option Mutex → Except Fault (Option Mutex)
  | none => .error .nilDereference
  | some ⟨true⟩ => .error .deadlock
  | some ⟨false⟩ => .ok (some ⟨true⟩)

/-- Method `Unlock` through a `*sync.Mutex`. -/
def Mutex.Unlock : Option Mutex → Except Fault (Option Mutex)
  | none => .error .nilDereference
  | some ⟨false⟩ => .error .unlockOfUnlocked
  | some ⟨true⟩ => .ok (some ⟨false⟩)

end sync

/-- The five severity levels. -/
inductive Level where
  | Trace
  | Debug
  | Info
  | Warning
  | Error
  deriving DecidableEq

/-- The name of a level. -/
def Level.name : Level → String
  | .Trace => "Trace"
  | .Debug => "Debug"
  | .Info => "Info"
  | .Warning => "Warning"
  | .Error => "Error"

/-- The configuration of a level. -/
def Config.level (c : Config) : Level → LevelConfig
  | .Trace => c.Trace
  | .Debug => c.Debug
  | .Info => c.Info
  | .Warning => c.Warning
  | .Error => c.Error

/-- What `fmt` prints for an operand whose method panicked on a `nil` pointer. -/
def fmt.panicText : String :=
  "%!v(PANIC=String method: runtime error: invalid memory address or nil pointer dereference)"

/-- A message, the `interface{}` operand of a level method, by what rendering it does,
that is by what its `String`, `Error` or `Format` method does when `fmt` calls it:
it returns a text (a string, a number, an error with a plain method; a method that panics
gives the text `fmt` prints for the recovered panic); or it first makes a call of its own on
the world and goes on; or it first calls a level method of the logger that is printing it,
with a message of its own, and goes on; or it never returns. -/
inductive Message where
  | text (s : String)
  | does (call : Call) (rest : Message)
  | log (lvl : Level) (inner : Message) (env : Env) (rest : Message)
  | hang

/-- The struct `Logger`; its three pointer fields are `none` when `nil`. -/
structure Logger where
  config : Config
  currentTime : time.Time
  logger : Option log.Logger
  file : Option OsFile
  mutex : Option sync.Mutex
  deriving DecidableEq

/-- Function `NewLogger`: the configuration and a fresh mutex, every other field zero. -/
def NewLogger (config : Config) : Logger :=
  { config := config
    currentTime := time.Time.zero
    logger := none
    file := none
    mutex := some ⟨false⟩ }

/-- The variable `DefaultLogger`. -/
def DefaultLogger : Logger := NewLogger DefaultConfig

/-- The call `os.OpenFile(name, flag, perm)`: the file when the environment lets it open,
`nil` otherwise. -/
def OpenFile (name : String) (flag : List OpenFlag) (perm : Nat) (env : Env) (w : World) :
    Option OsFile × World :=
  (if env.openOk name then some ⟨w.calls.length, name⟩ else none,
    ⟨w.calls ++ [.OpenFile name flag perm (env.openOk name)]⟩)

/-- The call `os.MkdirAll(path, perm)`, whose result the program drops. -/
def MkdirAll (path : String) (perm : Nat) (env : Env) (w : World) : World :=
  ⟨w.calls ++ [.MkdirAll path perm (env.mkdirOk path)]⟩

/-- Method `resetLogger`. -/
def Logger.resetLogger (lg : Logger) (config : LevelConfig) (env : Env) (w : World) :
    Logger × World :=
  let writers : List Writer := []
  let writers :=
    if Output.and config.Output Stdout = Stdout then writers ++ [Writer.stdout] else writers
  let writers :=
    if Output.and config.Output StdErr = StdErr then writers ++ [Writer.stderr] else writers
  let (lg, w, writers) :=
    if Output.and config.Output File = File then
      let currentTime := env.now
      let (lg, w) :=
        if currentTime.Format_2006_01_02 ≠ lg.currentTime.Format_2006_01_02 then
          let lg := { lg with currentTime := currentTime }
          let directory := "logs/" ++ currentTime.Format_2006_01_02
          let w := MkdirAll directory 0o666 env w
          let (file, w) :=
            OpenFile (directory ++ "/log.log") [.O_CREATE, .O_WRONLY, .O_APPEND] 0o666 env w
          ({ lg with file := file }, w)
        else (lg, w)
      (lg, w, writers ++ [Writer.file lg.file])
    else (lg, w, writers)
  ({ lg with logger := some ⟨writers, config.Prefix, config.Flag⟩ }, w)

/-- The body of the five level methods, with the level's configuration and the rendering of
the message as arguments: lock, reset the logger, print, and the deferred unlock. The
operand is rendered inside `Println`, while the mutex is held. -/
def Logger.logWith (lg : Logger) (config : LevelConfig)
    (operand : Logger → World → Except Fault (String × Logger × World)) (env : Env)
    (w : World) : Except Fault (Logger × World) := do
  let mutex ← sync.Mutex.Lock lg.mutex
  let lg := { lg with mutex := mutex }
  let (lg, w) := lg.resetLogger config env w
  match lg.logger with
  | none => .error .nilDereference
  | some l =>
    let (lg, w) ← l.Println operand lg env w
    let mutex ← sync.Mutex.Unlock lg.mutex
    pure ({ lg with mutex := mutex }, w)

/-- What `fmt` does to render a message while logger `lg` prints it. A call the message
makes on a level method of `lg` is that method's body, `logWith` at the level's
configuration, run on the logger as it is at that moment; a panic of that call is recovered
by `fmt`, which prints it, and a call that does not return keeps rendering from returning. -/
def Message.render : Message → Logger → World → Except Fault (String × Logger × World)
  | .text s, lg, w => .ok (s, lg, w)
  | .does call rest, lg, w => rest.render lg ⟨w.calls ++ [call]⟩
  | .log lvl inner env rest, lg, w =>
    match lg.logWith (lg.config.level lvl) inner.render env w with
    | .ok r => rest.render r.1 r.2
    | .error .nilDereference => .ok (fmt.panicText, lg, w)
    | .error e => .error e
  | .hang, _, _ => .error .hang

/-- Method `Trace`. -/
def Logger.Trace (lg : Logger) (message : Message) (env : Env) (w : World) :
    Except Fault (Logger × World) := do
  let mutex ← sync.Mutex.Lock lg.mutex
  let lg := { lg with mutex := mutex }
  let (lg, w) := lg.resetLogger lg.config.Trace env w
  match lg.logger with
  | none => .error .nilDereference
  | some l =>
    let (lg, w) ← l.Println message.render lg env w
    let mutex ← sync.Mutex.Unlock lg.mutex
    pure ({ lg with mutex := mutex }, w)

/-- Method `Debug`. -/
def Logger.Debug (lg : Logger) (message : Message) (env : Env) (w : World) :
    Except Fault (Logger × World) := do
  let mutex ← sync.Mutex.Lock lg.mutex
  let lg := { lg with mutex := mutex }
  let (lg, w) := lg.resetLogger lg.config.Debug env w
  match lg.logger with
  | none => .error .nilDereference
  | some l =>
    let (lg, w) ← l.Println message.render lg env w
    let mutex ← sync.Mutex.Unlock lg.mutex
    pure ({ lg with mutex := mutex }, w)

/-- Method `Info`. -/
def Logger.Info (lg : Logger) (message : Message) (env : Env) (w : World) :
    Except Fault (Logger × World) := do
  let mutex ← sync.Mutex.Lock lg.mutex
  let lg := { lg with mutex := mutex }
  let (lg, w) := lg.resetLogger lg.config.Info env w
  match lg.logger with
  | none => .error .nilDereference
  | some l =>
    let (lg, w) ← l.Println message.render lg env w
    let mutex ← sync.Mutex.Unlock lg.mutex
    pure ({ lg with mutex := mutex }, w)

/-- Method `Warning`. -/
def Logger.Warning (lg : Logger) (message : Message) (env : Env) (w : World) :
    Except Fault (Logger × World) := do
  let mutex ← sync.Mutex.Lock lg.mutex
  let lg := { lg with mutex := mutex }
  let (lg, w) := lg.resetLogger lg.config.Warning env w
  match lg.logger with
  | none => .error .nilDereference
  | some l =>
    let (lg, w) ← l.Println message.render lg env w
    let mutex ← sync.Mutex.Unlock lg.mutex
    pure ({ lg with mutex := mutex }, w)

/-- Method `Error`. -/
def Logger.Error (lg : Logger) (message : Message) (env : Env) (w : World) :
    Except Fault (Logger × World) := do
  let mutex ← sync.Mutex.Lock lg.mutex
  let lg := { lg with mutex := mutex }
  let (lg, w) := lg.resetLogger lg.config.Error env w
  match lg.logger with
  | none => .error .nilDereference
  | some l =>
    let (lg, w) ← l.Println message.render lg env w
    let mutex ← sync.Mutex.Unlock lg.mutex
    pure ({ lg with mutex := mutex }, w)

/-! ## Vocabulary of the statements -/

/-- Membership of destination `d` in the destination set `s`, as the source tests it:
`s&d == d`. -/
def Output.has (s d : Output) : Bool := Output.and s d == d

/-- The destination set built from the members of `S` by `|`, from the empty set `0`. -/
def Output.union (S : List Output) : Output := S.foldl Output.or 0

/-- The level method of a level. -/
def Logger.log (lg : Logger) (lvl : Level) (message : Message) (env : Env) (w : World) :
    Except Fault (Logger × World) :=
  match lvl with
  | .Trace => lg.Trace message env w
  | .Debug => lg.Debug message env w
  | .Info => lg.Info message env w
  | .Warning => lg.Warning message env w
  | .Error => lg.Error message env w

/-- A sequence of calls of level methods on one logger, each with its own message and
environment; a call that does not return ends the sequence with its fault. -/
def Logger.run (lg : Logger) (w : World) :
    List (Level × Message × Env) → Except Fault (Logger × World)
  | [] => .ok (lg, w)
  | (lvl, message, env) :: rest =>
    match lg.log lvl message env w with
    | .error e => .error e
    | .ok r => Logger.run r.1 r.2 rest

/-- Whether rendering a message returns without calling a level method of the logger that
prints it. -/
def Message.quiet : Message → Bool
  | .text _ => true
  | .does _ rest => rest.quiet
  | .log _ _ _ _ => false
  | .hang => false

/-- The text rendering a quiet message returns. -/
def Message.rendered : Message → String
  | .text s => s
  | .does _ rest => rest.rendered
  | .log _ _ _ _ => ""
  | .hang => ""

/-- The calls rendering a quiet message makes on the world by itself, oldest first. -/
def Message.effects : Message → List Call
  | .does call rest => call :: rest.effects
  | .text _ => []
  | .log _ _ _ _ => []
  | .hang => []

/-- The writers `resetLogger` left in the logger, in order; none before its first call. -/
def Logger.writers (lg : Logger) : List Writer :=
  match lg.logger with
  | none => []
  | some l => l.out

/-- Whether a `Write` on a writer succeeds in an environment. -/
def Writer.succeeds (env : Env) : Writer → Bool
  | .file none => false
  | wr => env.writeOk wr

/-- The leading writers of a list up to and including the first whose `Write` fails. -/
def io.attempted (env : Env) : List Writer → List Writer
  | [] => []
  | wr :: rest => if wr.succeeds env then wr :: io.attempted env rest else [wr]

/-- The texts that reached a writer, oldest first: those of its successful writes. -/
def World.delivered (w : World) (wr : Writer) : List String :=
  w.calls.filterMap fun c =>
    match c with
    | .Write wr' p true => if wr' = wr then some p else none
    | _ => none

/-- Whether a call is a `Write`. -/
def Call.isWrite : Call → Bool
  | .Write _ _ _ => true
  | _ => false

/-- The rotation step of `resetLogger` from world `w` to logger `lg'` and world `w'` at
time `now`: the stored date becomes `now`, a directory-creating call and a file-opening call
are made, in this order and nothing else, and the stored handle becomes the opened file, or
none when the opening failed. -/
def Rotated (w : World) (now : time.Time) (lg' : Logger) (w' : World) : Prop :=
  lg'.currentTime = now ∧
  ∃ path perm ok name flag perm' ok',
    w'.calls = w.calls ++ [.MkdirAll path perm ok, .OpenFile name flag perm' ok'] ∧
    lg'.file = if ok' then some ⟨w.calls.length + 1, name⟩ else none

/-- No rotation from `lg`, `w` to `lg'`, `w'`: no call made, stored date and handle kept. -/
def Unrotated (lg : Logger) (w : World) (lg' : Logger) (w' : World) : Prop :=
  w' = w ∧ lg'.currentTime = lg.currentTime ∧ lg'.file = lg.file

/-- A clock whose writes all succeed and whose openings succeed, on 15 January 2024 in a
zone one hour east of UTC. -/
def envOk : Env where
  now := ⟨1705276800, 3600⟩
  mkdirOk := fun _ => true
  openOk := fun _ => true
  writeOk := fun _ => true
  stamp := ⟨"2024/01/15", "01:00:00", "2024/01/15", "00:00:00", "000000", "/src/logger.go", "134"⟩

/-- The environment `envOk` with standard output closed: writes to it fail. -/
def envStdoutClosed : Env :=
  { envOk with writeOk := fun wr => wr != .stdout }

end logger

/-! ## Lemmas and theorems -/

namespace logger

open time

/-- From two to the 31 seconds before the Unix epoch on, the year of `absDate` has four digits
or more. -/
theorem absDate_year_ge (a : Nat) (h : 9223372028715321600 - 2147483648 ≤ a) :
    1000 ≤ (absDate a).1 := by
  unfold absDate absoluteZeroYear
  simp only [Nat.shiftRight_eq_div_pow]
  split_ifs <;> simp only [] <;> omega

/-- A value within `uint64` is its own bit pattern. -/
theorem toBits_of_range (x : Int) (h0 : 0 ≤ x) (h1 : x < 2 ^ 64) : toBits 64 x = x.toNat := by
  unfold toBits
  rw [Int.emod_eq_of_lt h0 h1]

/-- The absolute time of a clock reading, without wrap-around. -/
theorem abs_of_clock (sec off : Int) (h0 : 0 ≤ sec) (h1 : sec < 2 ^ 63)
    (h2 : -(2 ^ 31) ≤ off) (h3 : off < 2 ^ 31) :
    (Time.abs ⟨sec, off⟩) = (sec + off + 9223372028715321600).toNat := by
  unfold Time.abs unixToAbsolute
  rw [toBits_of_range]
  · norm_num
  · norm_num at *; omega
  · norm_num at *; omega

/-- The digits 1 to 9 are not the character `0`. -/
theorem digit_ne_zero (n : Nat) (h1 : 1 ≤ n) (h9 : n ≤ 9) : digit n ≠ '0' := by
  interval_cases n <;> decide

/-- A number of at least `10 ^ k` has more than `k` decimal digits. -/
theorem toDigitsCore_length (k : Nat) :
    ∀ (fuel n : Nat) (ds : List Char), 10 ^ k ≤ n → k < fuel →
      ds.length + k + 1 ≤ (Nat.toDigitsCore 10 fuel n ds).length := by
  induction k with
  | zero =>
    intro fuel n ds _ hf
    obtain ⟨f, rfl⟩ : ∃ f, fuel = f + 1 := ⟨fuel - 1, by omega⟩
    induction f generalizing n ds with
    | zero => simp [Nat.toDigitsCore]
    | succ f ih =>
      rw [Nat.toDigitsCore]
      split_ifs
      · simp
      · have := ih (n / 10) (Nat.digitChar (n % 10) :: ds) (by omega)
        simp only [List.length_cons] at this
        omega
  | succ k ih =>
    intro fuel n ds hn hf
    obtain ⟨f, rfl⟩ : ∃ f, fuel = f + 1 := ⟨fuel - 1, by omega⟩
    have h10 : 10 ^ k ≤ n / 10 := by
      rw [Nat.le_div_iff_mul_le (by norm_num)]
      calc 10 ^ k * 10 = 10 ^ (k + 1) := by ring
        _ ≤ n := hn
    have hpos : 0 < 10 ^ k := Nat.pos_pow_of_pos k (by norm_num)
    rw [Nat.toDigitsCore]
    rw [if_neg (by omega)]
    have := ih f (n / 10) (Nat.digitChar (n % 10) :: ds) h10 (by omega)
    simp only [List.length_cons] at this
    omega

/-- A number of at least 10000 has five decimal digits or more. -/
theorem toDigits_length_ge (u : Nat) (h : 10000 ≤ u) : 5 ≤ (Nat.toDigits 10 u).length := by
  have := toDigitsCore_length 4 (u + 1) u [] (by norm_num; exact h) (by omega)
  simpa [Nat.toDigits] using this

/-- The text `appendInt` gives is at least `width` long. -/
theorem appendInt_length (x : Int) (width : Nat) : width ≤ (appendInt x width).length := by
  unfold appendInt
  simp only []
  split_ifs with h1 h2 h3 h4 h5 <;>
    simp only [List.length_append, List.length_replicate, List.length_cons, List.length_nil] <;>
    omega

/-- The four digits `appendInt` gives a year from 0 to 9999. -/
theorem appendInt_year (y : Int) (h0 : 0 ≤ y) (h1 : y.natAbs < 10000) :
    appendInt y 4 = [digit (y.natAbs / 100 / 10), digit (y.natAbs / 100),
      digit (y.natAbs % 100 / 10), digit (y.natAbs % 100)] := by
  have hs : ¬ y < 0 := by omega
  simp [appendInt, hs, h1]

/-- A year of 10000 or more takes five digits or more. -/
theorem appendInt_year_length (y : Int) (h1 : ¬ y.natAbs < 10000) :
    5 ≤ (appendInt y 4).length := by
  have := toDigits_length_ge y.natAbs (by omega)
  have h42 : ¬ ((4 : Nat) = 2 ∧ y.natAbs < 100) := by omega
  simp only [appendInt, h1, and_false, if_false, h42, List.length_append]
  omega

/-- No clock reading renders as the date of the zero time, `0001-01-01`. -/
theorem Format_ne_zero (sec off : Int) (h0 : 0 ≤ sec) (h1 : sec < 2 ^ 63)
    (h2 : -(2 ^ 31) ≤ off) (h3 : off < 2 ^ 31) :
    (Time.Format_2006_01_02 ⟨sec, off⟩) ≠ Time.zero.Format_2006_01_02 := by
  have hz : Time.zero.Format_2006_01_02
      = String.mk ['0', '0', '0', '1', '-', '0', '1', '-', '0', '1'] := by decide
  rw [hz]
  unfold Time.Format_2006_01_02
  rw [abs_of_clock sec off h0 h1 h2 h3]
  have hy := absDate_year_ge (sec + off + 9223372028715321600).toNat (by norm_num at *; omega)
  generalize absDate (sec + off + 9223372028715321600).toNat = ymd at hy
  obtain ⟨y, m, d⟩ := ymd
  simp only [] at hy ⊢
  intro heq
  have heq := congrArg String.data heq
  simp only [] at heq
  by_cases hlt : y.natAbs < 10000
  · rw [appendInt_year y (by omega) hlt] at heq
    simp only [List.cons_append, List.cons.injEq] at heq
    exact digit_ne_zero (y.natAbs / 100 / 10) (by omega) (by omega) heq.1
  · have hlen := congrArg List.length heq
    have hyl := appendInt_year_length y hlt
    have hm := appendInt_length m 2
    have hd := appendInt_length d 2
    simp only [List.length_append, List.length_cons, List.length_nil] at hlen
    omega

/-- Adding one destination to a set of destinations adds exactly that member. -/
theorem or_has_step (acc x d : Output) (h0 : 0 ≤ acc) (h7 : acc ≤ 7)
    (hx : x ∈ [Stdout, StdErr, File]) (hd : d ∈ [Stdout, StdErr, File]) :
    (0 ≤ Output.or acc x ∧ Output.or acc x ≤ 7) ∧
      (Output.has (Output.or acc x) d = true ↔ Output.has acc d = true ∨ d = x) := by
  simp only [List.mem_cons, List.mem_singleton, List.not_mem_nil, or_false] at hx hd
  interval_cases acc <;> rcases hx with rfl | rfl | rfl <;> rcases hd with rfl | rfl | rfl <;>
    decide

/-- The members of a set folded from a list of destinations onto a set `acc`. -/
theorem foldl_or_has (S : List Output) :
    ∀ acc : Output, 0 ≤ acc → acc ≤ 7 → (∀ x ∈ S, x ∈ [Stdout, StdErr, File]) →
      ∀ d ∈ [Stdout, StdErr, File],
        (Output.has (S.foldl Output.or acc) d = true ↔ Output.has acc d = true ∨ d ∈ S) := by
  induction S with
  | nil => intro acc _ _ _ d _; simp
  | cons x S ih =>
    intro acc h0 h7 hS d hd
    have hx := hS x (List.mem_cons_self x S)
    have step := or_has_step acc x d h0 h7 hx hd
    rw [List.foldl_cons, ih (Output.or acc x) step.1.1 step.1.2
      (fun y hy => hS y (List.mem_cons_of_mem x hy)) d hd, step.2, List.mem_cons, or_assoc]

/-- Claim C9: for every list `S` of destinations among `Stdout`, `StdErr`, `File` and every
such destination `d`, the set built from `S` by `|` tests `d` as a member (`set&d == d`)
exactly when `d` is in `S`; for `S = [Stdout, File]` the test of `StdErr` fails and that of
`File` succeeds; the three values are the single bits 1, 2 and 4, pairwise distinct. -/
theorem destination_set_membership (S : List Output) (d : Output)
    (hS : ∀ x ∈ S, x ∈ [Stdout, StdErr, File]) (hd : d ∈ [Stdout, StdErr, File]) :
    (Output.has (Output.union S) d = true ↔ d ∈ S) ∧
    Output.has (Output.union [Stdout, File]) StdErr = false ∧
    Output.has (Output.union [Stdout, File]) File = true ∧
    (Stdout = 1 ∧ StdErr = 2 ∧ File = 4) ∧
    (Stdout ≠ StdErr ∧ Stdout ≠ File ∧ StdErr ≠ File) := by
  refine ⟨?_, by decide, by decide, by decide, by decide⟩
  have h := foldl_or_has S 0 (le_refl 0) (by norm_num) hS d hd
  have h0 : Output.has 0 d = false := by
    simp only [List.mem_cons, List.mem_singleton, List.not_mem_nil, or_false] at hd
    rcases hd with rfl | rfl | rfl <;> decide
  simpa [Output.union, h0] using h

/-- The statement of claim C9 at the list `[File, Stdout]` and the destination `StdErr`. -/
theorem destination_set_membership_witness :
    ((Output.has (Output.union [File, Stdout]) StdErr = true ↔ StdErr ∈ [File, Stdout]) ∧
    Output.has (Output.union [Stdout, File]) StdErr = false ∧
    Output.has (Output.union [Stdout, File]) File = true ∧
    (Stdout = 1 ∧ StdErr = 2 ∧ File = 4) ∧
    (Stdout ≠ StdErr ∧ Stdout ≠ File ∧ StdErr ≠ File)) :=
  destination_set_membership [File, Stdout] StdErr (by decide) (by decide)

/-- Claim C7: at each of the five levels `DefaultConfig` has the destination set
`Stdout | File` (`Stdout` and `File` are members, `StdErr` is not) and the flags
`log.Ldate | log.Ltime | log.Lshortfile`: these three flags are set and no other flag of
package `log` is. -/
theorem defaultConfig_destinations_and_flags (lvl : Level) :
    (DefaultConfig.level lvl).Output = Output.or Stdout File ∧
    (Output.has (DefaultConfig.level lvl).Output Stdout = true ∧
      Output.has (DefaultConfig.level lvl).Output File = true ∧
      Output.has (DefaultConfig.level lvl).Output StdErr = false) ∧
    (DefaultConfig.level lvl).Flag = bitOr 64 (bitOr 64 log.Ldate log.Ltime) log.Lshortfile ∧
    (bitAnd 64 (DefaultConfig.level lvl).Flag log.Ldate ≠ 0 ∧
      bitAnd 64 (DefaultConfig.level lvl).Flag log.Ltime ≠ 0 ∧
      bitAnd 64 (DefaultConfig.level lvl).Flag log.Lshortfile ≠ 0) ∧
    (bitAnd 64 (DefaultConfig.level lvl).Flag log.Lmicroseconds = 0 ∧
      bitAnd 64 (DefaultConfig.level lvl).Flag log.Llongfile = 0 ∧
      bitAnd 64 (DefaultConfig.level lvl).Flag log.LUTC = 0 ∧
      bitAnd 64 (DefaultConfig.level lvl).Flag log.Lmsgprefix = 0) := by
  cases lvl <;> decide

/-- Claim C8 fails as stated: the `Trace` prefix of `DefaultConfig` is `Trace` followed by five
spaces, not the left-padded text, five spaces followed by `Trace`. -/
theorem defaultConfig_pfx_not_left_padded :
    DefaultConfig.Trace.Prefix = "Trace     " ∧
    DefaultConfig.Trace.Prefix ≠ fmt.padString false 10 "Trace" ∧
    fmt.padString false 10 "Trace" = "     Trace" := by decide

/-- Claim C8, amended: at each of the five levels the prefix of `DefaultConfig` is the level
name followed by spaces up to a width of 10 characters: its length is exactly 10, it starts
with the name, and every character after the name is a space. -/
theorem defaultConfig_pfx_right_padded (lvl : Level) :
    (DefaultConfig.level lvl).Prefix
      = lvl.name ++ String.mk (List.replicate (10 - lvl.name.length) ' ') ∧
    (DefaultConfig.level lvl).Prefix.length = 10 ∧
    (DefaultConfig.level lvl).Prefix.data.take lvl.name.length = lvl.name.data ∧
    ∀ c ∈ (DefaultConfig.level lvl).Prefix.data.drop lvl.name.length, c = ' ' := by
  cases lvl <;> decide

/-- The writers `resetLogger` leaves, as a filter of the three destinations. -/
theorem resetLogger_writers (lg : Logger) (c : LevelConfig) (env : Env) (w : World) :
    (lg.resetLogger c env w).1.writers
      = ([(Stdout, Writer.stdout), (StdErr, Writer.stderr),
            (File, Writer.file (lg.resetLogger c env w).1.file)].filter
          fun p => Output.has c.Output p.1).map Prod.snd := by
  unfold Logger.resetLogger Logger.writers Output.has
  simp only []
  split_ifs <;> simp_all

/-- Method `resetLogger` keeps mutex and configuration and always sets the `log.Logger`. -/
theorem resetLogger_kept (lg : Logger) (c : LevelConfig) (env : Env) (w : World) :
    (lg.resetLogger c env w).1.mutex = lg.mutex ∧
    (lg.resetLogger c env w).1.config = lg.config ∧
    (lg.resetLogger c env w).1.logger
      = some ⟨(lg.resetLogger c env w).1.writers, c.Prefix, c.Flag⟩ := by
  unfold Logger.resetLogger Logger.writers
  simp only []
  split_ifs <;> simp

/-- Without `File` in the destination set, `resetLogger` does not rotate. -/
theorem resetLogger_no_file (lg : Logger) (c : LevelConfig) (env : Env) (w : World)
    (h : Output.has c.Output File = false) :
    Unrotated lg w (lg.resetLogger c env w).1 (lg.resetLogger c env w).2 := by
  have h' : ¬ Output.and c.Output File = File := by simpa [Output.has] using h
  unfold Logger.resetLogger Unrotated
  simp only [h', if_false]
  simp

/-- On the stored day, `resetLogger` does not rotate. -/
theorem resetLogger_same_day (lg : Logger) (c : LevelConfig) (env : Env) (w : World)
    (hday : env.now.Format_2006_01_02 = lg.currentTime.Format_2006_01_02) :
    Unrotated lg w (lg.resetLogger c env w).1 (lg.resetLogger c env w).2 := by
  unfold Logger.resetLogger Unrotated
  simp only [hday, ne_eq, not_true_eq_false, if_false]
  split_ifs <;> simp

/-- On another day than the stored one, a File-enabled `resetLogger` rotates: the calls it
makes, the date and the handle it stores. -/
theorem resetLogger_new_day (lg : Logger) (c : LevelConfig) (env : Env) (w : World)
    (hFile : Output.has c.Output File = true)
    (hday : env.now.Format_2006_01_02 ≠ lg.currentTime.Format_2006_01_02) :
    (lg.resetLogger c env w).1.currentTime = env.now ∧
    (lg.resetLogger c env w).2.calls = w.calls ++
      [.MkdirAll ("logs/" ++ env.now.Format_2006_01_02) 0o666
          (env.mkdirOk ("logs/" ++ env.now.Format_2006_01_02)),
        .OpenFile ("logs/" ++ env.now.Format_2006_01_02 ++ "/log.log")
          [.O_CREATE, .O_WRONLY, .O_APPEND] 0o666
          (env.openOk ("logs/" ++ env.now.Format_2006_01_02 ++ "/log.log"))] ∧
    (lg.resetLogger c env w).1.file =
      if env.openOk ("logs/" ++ env.now.Format_2006_01_02 ++ "/log.log") then
        some ⟨w.calls.length + 1, "logs/" ++ env.now.Format_2006_01_02 ++ "/log.log"⟩
      else none := by
  have h' : Output.and c.Output File = File := by simpa [Output.has] using hFile
  unfold Logger.resetLogger
  simp only [h', hday, ne_eq, not_false_eq_true, if_true, MkdirAll, OpenFile]
  simp

/-- The calls a write through the combined writer makes. -/
theorem multiWriter_calls (ws : List Writer) (p : String) (env : Env) :
    ∀ w : World,
      (io.MultiWriter.Write ws p env w).2.calls
        = w.calls ++ (io.attempted env ws).map fun wr => Call.Write wr p (wr.succeeds env) := by
  induction ws with
  | nil => intro w; simp [io.MultiWriter.Write, io.attempted]
  | cons wr rest ih =>
    intro w
    have hw : wr.Write p env w = (wr.succeeds env, ⟨w.calls ++ [.Write wr p (wr.succeeds env)]⟩) := by
      cases wr with
      | stdout => rfl
      | stderr => rfl
      | file f => cases f <;> rfl
    unfold io.MultiWriter.Write io.attempted
    simp only [hw]
    split_ifs with h
    · rw [ih]; simp [h]
    · simp [h]

/-- When every write succeeds, every writer is attempted. -/
theorem attempted_all (env : Env) (ws : List Writer) (h : ∀ wr ∈ ws, wr.succeeds env = true) :
    io.attempted env ws = ws := by
  induction ws with
  | nil => rfl
  | cons wr rest ih =>
    simp only [io.attempted, h wr (List.mem_cons_self wr rest), if_true]
    rw [ih (fun x hx => h x (List.mem_cons_of_mem wr hx))]

/-- Method `resetLogger` does not read the mutex. -/
theorem resetLogger_mutex (lg : Logger) (m : Option sync.Mutex) (c : LevelConfig) (env : Env)
    (w : World) :
    ({ lg with mutex := m } : Logger).resetLogger c env w
      = ({ (lg.resetLogger c env w).1 with mutex := m }, (lg.resetLogger c env w).2) := by
  unfold Logger.resetLogger
  simp only []
  split_ifs <;> rfl

/-- A world is its trace. -/
theorem world_eq (a : World) (l : List Call) (h : a.calls = l) : a = ⟨l⟩ := by
  cases a
  simp only [] at h
  rw [h]

/-- The entry is the header, the message and one newline. -/
theorem entry_eq (l : log.Logger) (message : String) (st : log.Stamp) :
    l.entry message st = log.formatHeader st l.pfx l.flag ++ (message ++ "\n") := by
  unfold log.Logger.entry
  simp [String.data_append]

/-- The attempted writers: those before the first failure, and the failing one. -/
theorem attempted_eq_takeWhile (env : Env) (ws : List Writer) :
    io.attempted env ws
      = ws.takeWhile (fun wr => wr.succeeds env)
        ++ (ws.dropWhile fun wr => wr.succeeds env).take 1 := by
  induction ws with
  | nil => rfl
  | cons wr rest ih =>
    by_cases h : wr.succeeds env = true
    · simp [io.attempted, h, ih]
    · simp [io.attempted, h]

/-- Claim C4, amended: a write through the combined writer is attempted on the listed
destinations in order up to and including the first whose write fails, and on no later one;
when every listed write succeeds, it is attempted on every listed destination. -/
theorem fanout_attempts_up_to_first_failure (writers : List Writer) (p : String) (env : Env)
    (w : World) :
    (io.MultiWriter.Write writers p env w).2.calls
      = w.calls ++ (io.attempted env writers).map (fun wr => Call.Write wr p (wr.succeeds env)) ∧
    io.attempted env writers
      = writers.takeWhile (fun wr => wr.succeeds env)
        ++ (writers.dropWhile fun wr => wr.succeeds env).take 1 ∧
    ((∀ wr ∈ writers, wr.succeeds env = true) → io.attempted env writers = writers) :=
  ⟨multiWriter_calls writers p env w, attempted_eq_takeWhile env writers,
    attempted_all env writers⟩

/-- The header contains the prefix: at its start, or at its end under `Lmsgprefix`. -/
theorem formatHeader_contains_pfx (st : log.Stamp) (pfx : String) (flag : Int) :
    pfx.data <:+: (log.formatHeader st pfx flag).data := by
  unfold log.formatHeader
  simp only []
  by_cases h : bitAnd 64 flag log.Lmsgprefix = 0
  · apply List.IsPrefix.isInfix
    simp only [h, if_true, ne_eq, not_true_eq_false, if_false]
    split_ifs <;> simp [String.data_append]
  · apply List.IsSuffix.isInfix
    simp only [h, if_false, ne_eq, not_false_eq_true, if_true, String.data_append]
    exact List.suffix_append _ _

/-- With destination set exactly `Stdout`, `resetLogger` leaves the one writer standard
output and does not rotate. -/
theorem resetLogger_stdout_only (lg : Logger) (c : LevelConfig) (env : Env) (w : World)
    (h1 : Output.has c.Output Stdout = true) (h2 : Output.has c.Output StdErr = false)
    (h3 : Output.has c.Output File = false) :
    (lg.resetLogger c env w).1.writers = [.stdout] ∧
    Unrotated lg w (lg.resetLogger c env w).1 (lg.resetLogger c env w).2 := by
  refine ⟨?_, resetLogger_no_file lg c env w h3⟩
  rw [resetLogger_writers]
  simp [List.filter, h1, h2, h3]

/-- Claim C1: the writers `resetLogger` leaves in the logger are the sub-sequence of standard
output, standard error, stored file (in this order) whose destinations test as members of
the level's destination set: a sublist of those three without repetition, in which each of
the three occurs exactly when its destination is enabled. -/
theorem resetLogger_destinations (lg : Logger) (c : LevelConfig) (env : Env) (w : World) :
    (lg.resetLogger c env w).1.writers
      = ([(Stdout, Writer.stdout), (StdErr, Writer.stderr),
            (File, Writer.file (lg.resetLogger c env w).1.file)].filter
          fun p => Output.has c.Output p.1).map Prod.snd ∧
    List.Sublist (lg.resetLogger c env w).1.writers
      [.stdout, .stderr, .file (lg.resetLogger c env w).1.file] ∧
    (lg.resetLogger c env w).1.writers.Nodup ∧
    (Writer.stdout ∈ (lg.resetLogger c env w).1.writers ↔ Output.has c.Output Stdout = true) ∧
    (Writer.stderr ∈ (lg.resetLogger c env w).1.writers ↔ Output.has c.Output StdErr = true) ∧
    (Writer.file (lg.resetLogger c env w).1.file ∈ (lg.resetLogger c env w).1.writers ↔
      Output.has c.Output File = true) := by
  rw [resetLogger_writers]
  cases h1 : Output.has c.Output Stdout <;> cases h2 : Output.has c.Output StdErr <;>
    cases h3 : Output.has c.Output File <;> simp [List.filter, h1, h2, h3]

/-- A trace with two more calls is another trace. -/
theorem append_two_ne_self (l : List Call) (a b : Call) : l ++ [a, b] ≠ l := by
  intro h
  have := congrArg List.length h
  simp at this

/-- Rendering a quiet message returns its text, leaves the logger alone and adds the calls
of the message to the world. -/
theorem render_quiet (m : Message) :
    ∀ (lg : Logger) (w : World), m.quiet = true →
      m.render lg w = .ok (m.rendered, lg, ⟨w.calls ++ m.effects⟩) := by
  induction m with
  | text s => intro lg w _; simp [Message.render, Message.rendered, Message.effects]
  | does call rest ih =>
    intro lg w h
    simp only [Message.render, Message.rendered, Message.effects]
    rw [ih lg _ h]
    simp
  | log lvl inner env rest _ _ => intro lg w h; simp [Message.quiet] at h
  | hang => intro lg w h; simp [Message.quiet] at h

/-- The body of a level method blocks on a held mutex. -/
theorem logWith_locked (lg : Logger) (c : LevelConfig)
    (f : Logger → World → Except Fault (String × Logger × World)) (env : Env) (w : World)
    (hm : lg.mutex = some ⟨true⟩) : lg.logWith c f env w = .error .deadlock := by
  unfold Logger.logWith
  rw [hm]
  rfl

/-- While the mutex is held, rendering a message that is not quiet does not return: it
blocks in `Lock`, or in the message's own code. -/
theorem render_not_quiet (m : Message) :
    ∀ (lg : Logger) (w : World), lg.mutex = some ⟨true⟩ → m.quiet = false →
      m.render lg w = .error .deadlock ∨ m.render lg w = .error .hang := by
  induction m with
  | text s => intro lg w _ h; simp [Message.quiet] at h
  | does call rest ih =>
    intro lg w hm h
    simp only [Message.render]
    exact ih lg _ hm h
  | log lvl inner env rest _ _ =>
    intro lg w hm _
    left
    simp only [Message.render, logWith_locked lg _ _ env w hm]
  | hang => intro lg w _ _; right; rfl

/-- The body of a level method on an unlocked mutex, unfolded up to the rendering. -/
theorem logWith_unfold (lg : Logger) (c : LevelConfig)
    (f : Logger → World → Except Fault (String × Logger × World)) (env : Env) (w : World)
    (lgr : Logger) (wr : World) (l : log.Logger) (hm : lg.mutex = some ⟨false⟩)
    (hreset : ({ lg with mutex := some ⟨true⟩ } : Logger).resetLogger c env w = (lgr, wr))
    (hlog : lgr.logger = some l) :
    lg.logWith c f env w =
      match f lgr wr with
      | .error e => .error e
      | .ok (text, lg2, w2) =>
        match sync.Mutex.Unlock lg2.mutex with
        | .error e => .error e
        | .ok m =>
          .ok ({ lg2 with mutex := m },
            (io.MultiWriter.Write l.out (l.entry text env.stamp) env w2).2) := by
  unfold Logger.logWith
  rw [hm]
  simp only [sync.Mutex.Lock, bind, Except.bind, hreset, log.Logger.Println]
  rw [hlog]
  simp only []
  cases f lgr wr with
  | error e => rfl
  | ok r =>
    obtain ⟨text, lg2, w2⟩ := r
    simp only []
    cases sync.Mutex.Unlock lg2.mutex <;> rfl

/-- The body of a level method on an unlocked mutex, when rendering returns and leaves the
logger alone: the logger `resetLogger` leaves, and the writes of the entry after the calls
made until then. -/
theorem logWith_ok (lg : Logger) (c : LevelConfig)
    (f : Logger → World → Except Fault (String × Logger × World)) (env : Env) (w w2 : World)
    (text : String) (hm : lg.mutex = some ⟨false⟩)
    (hf : f { (lg.resetLogger c env w).1 with mutex := some ⟨true⟩ } (lg.resetLogger c env w).2
      = .ok (text, { (lg.resetLogger c env w).1 with mutex := some ⟨true⟩ }, w2)) :
    lg.logWith c f env w =
      .ok ((lg.resetLogger c env w).1,
        ⟨w2.calls ++ (io.attempted env (lg.resetLogger c env w).1.writers).map
            fun wr => Call.Write wr
              (log.Logger.entry ⟨(lg.resetLogger c env w).1.writers, c.Prefix, c.Flag⟩ text
                env.stamp)
              (wr.succeeds env)⟩) := by
  obtain ⟨h1, -, h3⟩ := resetLogger_kept lg c env w
  rw [logWith_unfold lg c f env w _ _ _ hm (resetLogger_mutex lg _ c env w) h3, hf]
  simp only [sync.Mutex.Unlock]
  rw [hm] at h1
  congr 2
  · rw [← h1]
  · exact world_eq _ _ (multiWriter_calls _ _ _ _)

/-- The body of a level method on an unlocked mutex, when rendering does not return. -/
theorem logWith_error (lg : Logger) (c : LevelConfig)
    (f : Logger → World → Except Fault (String × Logger × World)) (env : Env) (w : World)
    (e : Fault) (hm : lg.mutex = some ⟨false⟩)
    (hf : f { (lg.resetLogger c env w).1 with mutex := some ⟨true⟩ } (lg.resetLogger c env w).2
      = .error e) :
    lg.logWith c f env w = .error e := by
  obtain ⟨-, -, h3⟩ := resetLogger_kept lg c env w
  rw [logWith_unfold lg c f env w _ _ _ hm (resetLogger_mutex lg _ c env w) h3, hf]

/-- Each level method is the shared body at its level configuration and the rendering of
its message. -/
theorem log_eq_logWith (lg : Logger) (lvl : Level) (message : Message) (env : Env)
    (w : World) :
    lg.log lvl message env w = lg.logWith (lg.config.level lvl) message.render env w := by
  cases lvl <;> rfl

/-- What a level method returns on an unlocked mutex and a quiet message: the logger
`resetLogger` leaves, and its calls, the calls of the message and the writes of the entry. -/
theorem log_ok (lg : Logger) (lvl : Level) (message : Message) (env : Env) (w : World)
    (hm : lg.mutex = some ⟨false⟩) (hq : message.quiet = true) :
    lg.log lvl message env w =
      .ok ((lg.resetLogger (lg.config.level lvl) env w).1,
        ⟨(lg.resetLogger (lg.config.level lvl) env w).2.calls ++ message.effects ++
          (io.attempted env (lg.resetLogger (lg.config.level lvl) env w).1.writers).map
            fun wr => Call.Write wr
              (log.Logger.entry ⟨(lg.resetLogger (lg.config.level lvl) env w).1.writers,
                (lg.config.level lvl).Prefix, (lg.config.level lvl).Flag⟩ message.rendered
                env.stamp)
              (wr.succeeds env)⟩) := by
  rw [log_eq_logWith]
  exact logWith_ok lg _ _ env w _ _ hm (render_quiet message _ _ hq)

/-- A level method on an unlocked mutex does not return on a message that is not quiet. -/
theorem log_blocks (lg : Logger) (lvl : Level) (message : Message) (env : Env) (w : World)
    (hm : lg.mutex = some ⟨false⟩) (hq : message.quiet = false) :
    lg.log lvl message env w = .error .deadlock ∨ lg.log lvl message env w = .error .hang := by
  rw [log_eq_logWith]
  rcases render_not_quiet message
    { (lg.resetLogger (lg.config.level lvl) env w).1 with mutex := some ⟨true⟩ }
    (lg.resetLogger (lg.config.level lvl) env w).2 rfl hq with h | h
  · exact Or.inl (logWith_error lg _ _ env w _ hm h)
  · exact Or.inr (logWith_error lg _ _ env w _ hm h)

/-- A level method returns exactly on a quiet message. -/
theorem log_returns_iff (lg : Logger) (lvl : Level) (message : Message) (env : Env)
    (w : World) (hm : lg.mutex = some ⟨false⟩) :
    (∃ r, lg.log lvl message env w = .ok r) ↔ message.quiet = true := by
  constructor
  · rintro ⟨r, hr⟩
    by_contra hq
    rcases log_blocks lg lvl message env w hm (by simpa using hq) with h | h <;>
      rw [h] at hr <;> cases hr
  · exact fun hq => ⟨_, log_ok lg lvl message env w hm hq⟩

/-- A level method on a quiet message returns with the mutex unlocked again and the
configuration kept. -/
theorem log_mutex (lg : Logger) (lvl : Level) (message : Message) (env : Env) (w : World)
    (hm : lg.mutex = some ⟨false⟩) (hq : message.quiet = true) :
    ∃ r, lg.log lvl message env w = .ok r ∧ r.1.mutex = some ⟨false⟩ ∧ r.1.config = lg.config := by
  refine ⟨_, log_ok lg lvl message env w hm hq, ?_, ?_⟩
  · rw [(resetLogger_kept lg _ env w).1, hm]
  · exact (resetLogger_kept lg _ env w).2.1

/-- Every sequence of level calls with quiet messages from an unlocked logger returns, mutex
unlocked. -/
theorem run_ok (ops : List (Level × Message × Env)) :
    ∀ (lg : Logger) (w : World), lg.mutex = some ⟨false⟩ →
      (∀ op ∈ ops, op.2.1.quiet = true) →
      ∃ r, lg.run w ops = .ok r ∧ r.1.mutex = some ⟨false⟩ ∧ r.1.config = lg.config := by
  induction ops with
  | nil => intro lg w hm _; exact ⟨(lg, w), rfl, hm, rfl⟩
  | cons op rest ih =>
    intro lg w hm hq
    obtain ⟨lvl, message, env⟩ := op
    obtain ⟨r, hr, hrm, hrc⟩ := log_mutex lg lvl message env w hm
      (hq (lvl, message, env) (List.mem_cons_self _ _))
    obtain ⟨r', hr', hrm', hrc'⟩ := ih r.1 r.2 hrm
      (fun op hop => hq op (List.mem_cons_of_mem _ hop))
    refine ⟨r', ?_, hrm', hrc'.trans hrc⟩
    simp only [Logger.run, hr]
    exact hr'

/-- A level method on an unlocked mutex and a quiet message adds, to the calls of
`resetLogger`, the calls of the message and then only writes. -/
theorem log_spec (lg : Logger) (lvl : Level) (message : Message) (env : Env) (w : World)
    (hm : lg.mutex = some ⟨false⟩) (hq : message.quiet = true) :
    ∃ writes,
      lg.log lvl message env w
        = .ok ((lg.resetLogger (lg.config.level lvl) env w).1,
            ⟨(lg.resetLogger (lg.config.level lvl) env w).2.calls ++ message.effects
              ++ writes⟩) ∧
      ∀ call ∈ writes, call.isWrite = true := by
  refine ⟨_, log_ok lg lvl message env w hm hq, ?_⟩
  intro call hcall
  simp only [List.mem_map] at hcall
  obtain ⟨wr, -, rfl⟩ := hcall
  rfl

/-- Claim C4 fails as stated: with destinations standard output and standard error and
standard output closed, `Info` leaves the writers `[stdout, stderr]` in the logger and makes
one `Write`, the failed one on standard output; standard error is never written to. -/
theorem fanout_stops_at_first_failure :
    ((NewLogger { DefaultConfig with
          Info := { Output := Output.or Stdout StdErr, Prefix := "", Flag := 0 } }).Info
        (.text "x") envStdoutClosed ⟨[]⟩).toOption.map (fun r => (r.1.writers, r.2.calls))
      = some ([.stdout, .stderr], [.Write .stdout "x\n" false]) := by
  decide

/-- Claim C5 fails as stated: a message whose `String` method calls `Info` on the logger that
is printing it makes `Info` block for ever, in the `Lock` of the inner call, because the
message is rendered inside `Println` while the mutex is held. -/
theorem reentrant_message_never_returns :
    (NewLogger DefaultConfig).Info (.log .Info (.text "inner") envOk (.text "outer")) envOk ⟨[]⟩
      = .error .deadlock :=
  rfl

/-- Claim C5, amended: on a logger built by `NewLogger` from any configuration, after any
history of level calls that returned, each of `Trace`, `Debug`, `Info`, `Warning` and
`Error` returns exactly when rendering its message returns without calling a level method of
this logger, whatever the environment decides for directory creation, file opening and
writes; a rotation whose opening fails leaves the stored handle absent; a write on the
absent handle fails and delivers nothing anywhere. -/
theorem level_methods_return_iff_quiet (cfg : Config)
    (history : List (Level × Message × Env)) (w : World) (message : Message) (env : Env)
    (hhistory : ∀ op ∈ history, op.2.1.quiet = true) :
    ∃ lg w', (NewLogger cfg).run w history = .ok (lg, w') ∧
      ((∃ r, lg.Trace message env w' = .ok r) ↔ message.quiet = true) ∧
      ((∃ r, lg.Debug message env w' = .ok r) ↔ message.quiet = true) ∧
      ((∃ r, lg.Info message env w' = .ok r) ↔ message.quiet = true) ∧
      ((∃ r, lg.Warning message env w' = .ok r) ↔ message.quiet = true) ∧
      ((∃ r, lg.Error message env w' = .ok r) ↔ message.quiet = true) ∧
      (∀ lvl r, lg.log lvl message env w' = .ok r →
        Output.has (cfg.level lvl).Output File = true →
        env.now.Format_2006_01_02 ≠ lg.currentTime.Format_2006_01_02 →
        env.openOk ("logs/" ++ env.now.Format_2006_01_02 ++ "/log.log") = false →
        r.1.file = none) ∧
      ∀ p,
        ((Writer.file none).Write p env w').1 = false ∧
        ∀ wr, ((Writer.file none).Write p env w').2.delivered wr = w'.delivered wr := by
  obtain ⟨r, hr, hm, hc⟩ := run_ok history (NewLogger cfg) w rfl hhistory
  refine ⟨r.1, r.2, hr, ?_, ?_, ?_, ?_, ?_, ?_, ?_⟩
  · exact log_returns_iff r.1 .Trace message env r.2 hm
  · exact log_returns_iff r.1 .Debug message env r.2 hm
  · exact log_returns_iff r.1 .Info message env r.2 hm
  · exact log_returns_iff r.1 .Warning message env r.2 hm
  · exact log_returns_iff r.1 .Error message env r.2 hm
  · intro lvl r' hr' hFile hday hopen
    have hq : message.quiet = true := (log_returns_iff r.1 lvl message env r.2 hm).1 ⟨r', hr'⟩
    rw [log_ok r.1 lvl message env r.2 hm hq] at hr'
    have hc' : r.1.config = cfg := hc
    rw [hc'] at hr'
    have := (resetLogger_new_day r.1 (cfg.level lvl) env r.2 hFile hday).2.2
    rw [hopen] at this
    cases hr'
    simpa using this
  · intro p
    refine ⟨rfl, fun wr => ?_⟩
    simp [Writer.Write, World.delivered, List.filterMap_append]

/-- The amended claim C5 at the default configuration, after one `Info` of a text, for a
`Trace` of a message whose rendering first writes on standard error by itself. -/
theorem level_methods_return_iff_quiet_witness :
    (∀ op ∈ [(Level.Info, Message.text "a", envOk)], op.2.1.quiet = true) ∧
    ∃ lg w', (NewLogger DefaultConfig).run ⟨[]⟩ [(Level.Info, Message.text "a", envOk)]
        = .ok (lg, w') ∧
      ∃ r, lg.Trace (.does (.Write .stderr "side" true) (.text "b")) envOk w' = .ok r :=
  ⟨by simp [Message.quiet], by
    obtain ⟨lg, w', h1, h2, -⟩ := level_methods_return_iff_quiet DefaultConfig
      [(Level.Info, Message.text "a", envOk)] ⟨[]⟩
      (.does (.Write .stderr "side" true) (.text "b")) envOk (by simp [Message.quiet])
    exact ⟨lg, w', h1, h2.2 rfl⟩⟩

/-- Claim C6 fails as stated, on a logger with destination set `Stdout`, an empty prefix and
no flags: `Info` of the message `a`, newline, `b` writes one text with two newlines to
standard output; and `Info` of a message whose `String` method calls `Info` on this logger
writes nothing and never returns. -/
theorem stdout_entry_not_one_line :
    (((NewLogger { DefaultConfig with
          Info := { Output := Stdout, Prefix := "", Flag := 0 } }).Info
        (.text "a\nb") envOk ⟨[]⟩).toOption.map (fun r => r.2.calls)
      = some [.Write .stdout "a\nb\n" true] ∧
    "a\nb\n".data.count '\n' = 2) ∧
    (NewLogger { DefaultConfig with
        Info := { Output := Stdout, Prefix := "", Flag := 0 } }).Info
      (.log .Info (.text "inner") envOk (.text "outer")) envOk ⟨[]⟩ = .error .deadlock :=
  ⟨by decide, rfl⟩

/-- Claim C6, amended: on a logger whose level has destination set exactly `Stdout` (`Stdout`
is a member, `StdErr` and `File` are not), a call of that level with a message whose
rendering returns without calling a level method of this logger makes, after the calls that
rendering makes by itself, one `Write`, on standard output, and no other call: no write on
standard error or a file, no directory created, no file opened; the stored date and handle
are unchanged. The text written is the header, the rendered message and a newline: it ends
in a newline, contains the configured prefix and the rendered message, and has one newline
more than the header and the rendered message have between them, so exactly one when they
have none. -/
theorem stdout_only_writes_one_entry (lg : Logger) (lvl : Level) (message : Message)
    (env : Env) (w : World) (hm : lg.mutex = some ⟨false⟩)
    (hout : Output.has (lg.config.level lvl).Output Stdout = true)
    (herr : Output.has (lg.config.level lvl).Output StdErr = false)
    (hfile : Output.has (lg.config.level lvl).Output File = false)
    (hquiet : message.quiet = true) :
    ∃ lg' line,
      lg.log lvl message env w
        = .ok (lg', ⟨w.calls ++ message.effects
            ++ [.Write .stdout line (env.writeOk .stdout)]⟩) ∧
      lg'.currentTime = lg.currentTime ∧ lg'.file = lg.file ∧
      line = log.formatHeader env.stamp (lg.config.level lvl).Prefix (lg.config.level lvl).Flag
        ++ (message.rendered ++ "\n") ∧
      line.data.getLast? = some '\n' ∧
      (lg.config.level lvl).Prefix.data <:+: line.data ∧
      message.rendered.data <:+: line.data ∧
      line.data.count '\n'
        = (log.formatHeader env.stamp (lg.config.level lvl).Prefix
            (lg.config.level lvl).Flag).data.count '\n'
          + message.rendered.data.count '\n' + 1 := by
  obtain ⟨hw, hu1, hu2, hu3⟩ := resetLogger_stdout_only lg _ env w hout herr hfile
  refine ⟨_, _, ?_, hu2, hu3, rfl, ?_, ?_, ?_, ?_⟩
  · rw [log_ok lg lvl message env w hm hquiet, hw, hu1, entry_eq]
    simp [io.attempted, Writer.succeeds]
  · simp [String.data_append]
  · obtain ⟨s, t, hst⟩ := formatHeader_contains_pfx env.stamp (lg.config.level lvl).Prefix
      (lg.config.level lvl).Flag
    exact ⟨s, t ++ (message.rendered ++ "\n").data, by
      rw [String.data_append (log.formatHeader _ _ _), ← hst]; simp⟩
  · exact ⟨(log.formatHeader env.stamp (lg.config.level lvl).Prefix
      (lg.config.level lvl).Flag).data, ['\n'], by simp [String.data_append]⟩
  · simp [String.data_append, List.count_append]
    omega

/-- The amended claim C6 at a fresh logger whose `Info` writes to standard output with the
prefix `I` and a blank, for the text `up`. -/
theorem stdout_only_writes_one_entry_witness :
    (NewLogger { DefaultConfig with Info := { Output := Stdout, Prefix := "I ", Flag := 0 } }).mutex
      = some ⟨false⟩ ∧
    (Output.has Stdout Stdout = true ∧ Output.has Stdout StdErr = false ∧
      Output.has Stdout File = false) ∧
    (Message.text "up").quiet = true ∧
    ∃ lg' line,
      (NewLogger { DefaultConfig with
          Info := { Output := Stdout, Prefix := "I ", Flag := 0 } }).log .Info (.text "up")
          envOk ⟨[]⟩
        = .ok (lg', ⟨[.Write .stdout line true]⟩) ∧
      line = "I up\n" :=
  ⟨rfl, by decide, rfl, by
    obtain ⟨lg', line, h1, -, -, h4, -⟩ := stdout_only_writes_one_entry
      (NewLogger { DefaultConfig with Info := { Output := Stdout, Prefix := "I ", Flag := 0 } })
      .Info (.text "up") envOk ⟨[]⟩ rfl (by decide) (by decide) (by decide) rfl
    exact ⟨lg', line, h1, h4.trans (by decide)⟩⟩

/-- Claim C2: a File-enabled `resetLogger` performs the rotation step (stored date set to
now, one directory creation, one file opening, stored handle replaced) exactly when the
`2006-01-02` rendering of now differs from that of the stored date, and otherwise makes no
call and keeps stored date and handle. So a second File-enabled level call on the same
calendar day adds only the calls of its message and writes, and keeps stored date and
handle, and the first File-enabled level call on a logger fresh from `NewLogger` rotates,
for every reading of a clock that is not before the Unix epoch. The level calls are those
that return, on messages whose rendering returns without calling this logger. -/
theorem rotation_iff_new_day (lg : Logger) (c : LevelConfig) (env : Env) (w : World)
    (hFile : Output.has c.Output File = true) :
    (Rotated w env.now (lg.resetLogger c env w).1 (lg.resetLogger c env w).2 ↔
      env.now.Format_2006_01_02 ≠ lg.currentTime.Format_2006_01_02) ∧
    (Unrotated lg w (lg.resetLogger c env w).1 (lg.resetLogger c env w).2 ↔
      env.now.Format_2006_01_02 = lg.currentTime.Format_2006_01_02) ∧
    (∀ lvl lvl2 message message2 env2,
      lg.mutex = some ⟨false⟩ → lg.config.level lvl = c →
      Output.has (lg.config.level lvl2).Output File = true →
      env2.now.Format_2006_01_02 = env.now.Format_2006_01_02 →
      message.quiet = true → message2.quiet = true →
      ∃ lg1 w1 lg2 w2 writes,
        lg.log lvl message env w = .ok (lg1, w1) ∧
        lg1.log lvl2 message2 env2 w1 = .ok (lg2, w2) ∧
        lg2.currentTime = lg1.currentTime ∧ lg2.file = lg1.file ∧
        w2.calls = w1.calls ++ message2.effects ++ writes ∧
        ∀ call ∈ writes, call.isWrite = true) ∧
    (∀ cfg lvl message,
      cfg.level lvl = c → env.now.isClockReading → message.quiet = true →
      ∃ lg1 w1 wmid writes,
        (NewLogger cfg).log lvl message env w = .ok (lg1, w1) ∧
        Rotated w env.now lg1 wmid ∧
        w1.calls = wmid.calls ++ message.effects ++ writes ∧
        ∀ call ∈ writes, call.isWrite = true) := by
  have hnew : env.now.Format_2006_01_02 ≠ lg.currentTime.Format_2006_01_02 →
      Rotated w env.now (lg.resetLogger c env w).1 (lg.resetLogger c env w).2 := by
    intro hday
    obtain ⟨h1, h2, h3⟩ := resetLogger_new_day lg c env w hFile hday
    exact ⟨h1, _, _, _, _, _, _, _, h2, h3⟩
  refine ⟨⟨?_, hnew⟩, ⟨?_, resetLogger_same_day lg c env w⟩, ?_, ?_⟩
  · rintro ⟨-, _, _, _, _, _, _, _, hcalls, -⟩ hday
    rw [(resetLogger_same_day lg c env w hday).1] at hcalls
    exact append_two_ne_self _ _ _ hcalls.symm
  · rintro ⟨hw, -, -⟩
    by_contra hday
    have := (resetLogger_new_day lg c env w hFile hday).2.1
    rw [hw] at this
    exact append_two_ne_self _ _ _ this.symm
  · intro lvl lvl2 message message2 env2 hm hc hFile2 hday2 hq hq2
    have hk := resetLogger_kept lg c env w
    have hm1 : (lg.resetLogger c env w).1.mutex = some ⟨false⟩ := by rw [hk.1, hm]
    have hd1 : env2.now.Format_2006_01_02
        = (lg.resetLogger c env w).1.currentTime.Format_2006_01_02 := by
      rw [hday2]
      by_cases hday : env.now.Format_2006_01_02 = lg.currentTime.Format_2006_01_02
      · rw [(resetLogger_same_day lg c env w hday).2.1, hday]
      · rw [(resetLogger_new_day lg c env w hFile hday).1]
    obtain ⟨writes1, e1, hw1⟩ := log_spec lg lvl message env w hm hq
    rw [hc] at e1
    obtain ⟨writes2, e2, hw2⟩ := log_spec (lg.resetLogger c env w).1 lvl2 message2 env2
      ⟨(lg.resetLogger c env w).2.calls ++ message.effects ++ writes1⟩ hm1 hq2
    obtain ⟨u1, u2, u3⟩ := resetLogger_same_day (lg.resetLogger c env w).1
      ((lg.resetLogger c env w).1.config.level lvl2) env2
      ⟨(lg.resetLogger c env w).2.calls ++ message.effects ++ writes1⟩ hd1
    refine ⟨_, _, _, _, writes2, e1, e2, u2, u3, ?_, hw2⟩
    rw [u1]
  · intro cfg lvl message hc hclock hq
    have hday : env.now.Format_2006_01_02 ≠ (NewLogger cfg).currentTime.Format_2006_01_02 :=
      Format_ne_zero env.now.unixSec env.now.offset hclock.1.1 hclock.1.2 hclock.2.1 hclock.2.2
    obtain ⟨writes1, e1, hw1⟩ := log_spec (NewLogger cfg) lvl message env w rfl hq
    have hcfg : (NewLogger cfg).config.level lvl = c := hc
    rw [hcfg] at e1
    obtain ⟨r1, r2, r3⟩ := resetLogger_new_day (NewLogger cfg) c env w hFile hday
    exact ⟨_, _, ((NewLogger cfg).resetLogger c env w).2, writes1, e1,
      ⟨r1, _, _, _, _, _, _, _, r2, r3⟩, rfl, hw1⟩

/-- The statement of claim C2 at the default logger, level `Info`, on 15 January 2024. -/
theorem rotation_iff_new_day_witness :
    Output.has DefaultConfig.Info.Output File = true ∧ envOk.now.isClockReading ∧
    (Rotated ⟨[]⟩ envOk.now (DefaultLogger.resetLogger DefaultConfig.Info envOk ⟨[]⟩).1
        (DefaultLogger.resetLogger DefaultConfig.Info envOk ⟨[]⟩).2 ↔
      envOk.now.Format_2006_01_02 ≠ DefaultLogger.currentTime.Format_2006_01_02) ∧
    (∃ lg1 w1 lg2 w2 writes,
      DefaultLogger.log .Info (.text "first") envOk ⟨[]⟩ = .ok (lg1, w1) ∧
      lg1.log .Error (.text "second") envOk w1 = .ok (lg2, w2) ∧
      lg2.currentTime = lg1.currentTime ∧ lg2.file = lg1.file ∧
      w2.calls = w1.calls ++ (Message.text "second").effects ++ writes ∧
      ∀ call ∈ writes, call.isWrite = true) ∧
    (∃ lg1 w1 wmid writes,
      (NewLogger DefaultConfig).log .Info (.text "first") envOk ⟨[]⟩ = .ok (lg1, w1) ∧
      Rotated ⟨[]⟩ envOk.now lg1 wmid ∧
      w1.calls = wmid.calls ++ (Message.text "first").effects ++ writes ∧
      ∀ call ∈ writes, call.isWrite = true) :=
  ⟨by decide, by decide,
    (rotation_iff_new_day DefaultLogger DefaultConfig.Info envOk ⟨[]⟩ (by decide)).1,
    (rotation_iff_new_day DefaultLogger DefaultConfig.Info envOk ⟨[]⟩ (by decide)).2.2.1
      .Info .Error (.text "first") (.text "second") envOk rfl rfl (by decide) rfl rfl rfl,
    (rotation_iff_new_day DefaultLogger DefaultConfig.Info envOk ⟨[]⟩ (by decide)).2.2.2
      DefaultConfig .Info (.text "first") rfl (by decide) rfl⟩

/-- Claim C3, on the code: `resetLogger` makes the same calls whatever `LogPath` holds, and
at a configuration with `LogPath` set to `/var/log/app` the first `Info` on 15 January 2024
creates `logs/2024-01-15` and opens `logs/2024-01-15/log.log`, not a path under
`/var/log/app`: the base directory is the constant `logs`, `LogPath` is not read. -/
theorem logPath_is_not_used (lg : Logger) (p : String) (c : LevelConfig) (env : Env)
    (w : World) :
    (({ lg with config := { lg.config with LogPath := p } } : Logger).resetLogger c env w).2
      = (lg.resetLogger c env w).2 ∧
    ((NewLogger { DefaultConfig with LogPath := "/var/log/app" }).Info (.text "x") envOk
        ⟨[]⟩).toOption.map (fun r => r.2.calls.take 2)
      = some [.MkdirAll "logs/2024-01-15" 0o666 true,
          .OpenFile "logs/2024-01-15/log.log" [.O_CREATE, .O_WRONLY, .O_APPEND] 0o666 true] ∧
    "logs/2024-01-15/log.log" ≠ "/var/log/app/2024-01-15/log.log" := by
  refine ⟨?_, by decide, by decide⟩
  unfold Logger.resetLogger
  simp only []
  split_ifs <;> rfl

end logger
